import Mathlib

/-!
# SHA256AES128_FPGA: host-side signing session and benchmark harness

Shallow embedding of `Full/C/Pi/WithFPGA/src/crypt2.c` and of the main loops of
`Full/C/Pi/WithFPGA/src/main.c` and `Full/C/Galileo/WithFPGA/src/main.c`.

Conventions of the embedding.

* A C `char` is an integer (`CChar`); a buffer is the list of its bytes.
* A pointer through which a function only reads is an `Option`: `none` is
  `NULL`, `some b` gives the bytes `b` read through it.
* A pointer through which a function writes is an `out_ptr`: `NULL`, an object
  of its own, or the address of the `secretKey` field of the session itself.
  A function returns the new contents of every object it may write.
* Calls into the bcm2835 library are recorded, in order, in a log.
* Every function of `crypt2.c` declares `int rv;` without initialiser and
  assigns it only through the macro `ASSERT` of `include/common.h`. The value
  held by `rv` at the label `_err` when no assertion has failed is therefore a
  parameter (`rv`) of each embedded function; `CRYPT_FAILED`, a constant of
  `include/crypt.h`, is a parameter as well.
-/

set_option linter.unusedVariables false
set_option linter.unnecessarySeqFocus false
set_option maxRecDepth 8192

namespace SHA256AES128

/-- Value of a C `char` (either signedness). -/
abbrev CChar := Int

/-- Modelled from the spec: the type `crypt_context_t` of `include/crypt.h`,
which is not among the sources: "Session: { initialized: bool, secretKey:
32-byte buffer }". The functions of `crypt2.c` use exactly these two fields. -/
structure crypt_context_t where
  initialised : Bool
  secretKey : List CChar
deriving DecidableEq

/-- Calls into the bcm2835 library, as recorded in the bus log. For a transfer
the log keeps the outbound buffer and the length in bytes. -/
inductive bcm2835 where
  | init
  | spi_begin
  | spi_setClockDivider
  | spi_transfernb (tbuf : List CChar) (len : Nat)
  | spi_end
  | close
deriving DecidableEq

/-- The function `memcpy(dst, src, n)`: the first `n` bytes of `dst` are replaced by the
first `n` bytes of `src` (both objects hold at least `n` bytes). -/
def memcpy (dst src : List CChar) (n : Nat) : List CChar :=
  src.take n ++ dst.drop n

/-- A pointer through which a function of `crypt2.c` writes: `NULL`, an object
distinct from the session with the given contents, or the address of the
`secretKey` field of the session the call is made on (the overlap of an output
buffer with the session that the embedding represents). -/
inductive out_ptr where
  | null
  | obj (bytes : List CChar)
  | secretKey
deriving DecidableEq

/-- The bytes behind an output pointer, `none` for `NULL`. -/
def out_ptr.contents (context : Option crypt_context_t) : out_ptr → Option (List CChar)
  | .null => none
  | .obj bytes => some bytes
  | .secretKey => context.map (fun ctx => ctx.secretKey)

/-- The session after `bytes` have been stored through an output pointer: a
store through the address of `secretKey` lands in the session. -/
def out_ptr.store (ctx : crypt_context_t) (bytes : List CChar) : out_ptr → crypt_context_t
  | .secretKey => { ctx with secretKey := bytes }
  | _ => ctx

/-- Outcome of a function of `crypt2.c` that touches the session and the bus. -/
structure crypt_result where
  rv : Int
  context : Option crypt_context_t
  bus : List bcm2835
deriving DecidableEq

/-- Outcome of `crypt_sha_aes_sign`: as `crypt_result`, with the bytes behind
`encBuffer` after the call. -/
structure sign_result where
  rv : Int
  context : Option crypt_context_t
  encBuffer : Option (List CChar)
  bus : List bcm2835
deriving DecidableEq

/-- Results of the libgcrypt calls made by `crypt_aes_dec` (external library):
key and block length of AES-256, and for each fallible call its error code
(`0` is success). `cipher_open` also gives the handle stored in `gcryCipherHd`;
`cipher_decrypt key iv out enc len` gives the new contents of the output
buffer. -/
structure Gcrypt where
  keylen : Nat
  blklen : Nat
  cipher_open : Nat × Option Nat
  cipher_setkey : List CChar → Nat → Nat
  cipher_setiv : List CChar → Nat → Nat
  cipher_decrypt : List CChar → List CChar → List CChar → List CChar → Nat → Nat × List CChar

/-- Outcome of a call of `crypt_aes_dec` that returns: `outBuffer` holds the
bytes behind the output pointer after the call, `closed` the handle passed to
`gcry_cipher_close` at `_err`, if any. -/
structure dec_result where
  rv : Int
  context : Option crypt_context_t
  outBuffer : Option (List CChar)
  closed : Option Nat
deriving DecidableEq

/-- Modelled from the spec: the macro `ASSERT(cond, rv, err, ...)` of
`include/common.h`, which is not among the sources: "every fallible step is
checked immediately and the function exits early". When `cond` is false, `rv`
receives `err` and control goes to the label `_err` (here `_err err`);
otherwise the function goes on (`rest`) and `rv` is left to the parameter
described in the header. An assertion on a pointer is written as the `none`
branch of the match that dereferences it. -/
def ASSERT {β : Type} (cond : Bool) (err : Int) (_err : Int → β) (rest : β) : β :=
  if cond then rest else _err err

/-- The function `crypt_initialise` (crypt2.c:40). `bcm2835_init` and `bcm2835_spi_begin` are
the truth values of the results of the two library calls. The libgcrypt
start-up calls touch neither the session nor the bus. -/
def crypt_initialise (CRYPT_FAILED rv : Int) (bcm2835_init bcm2835_spi_begin : Bool)
    (bus : List bcm2835) (context : Option crypt_context_t) : crypt_result :=
  match context with
  | none => ⟨CRYPT_FAILED, context, bus⟩
  | some ctx =>
    let bus1 := bus ++ [bcm2835.init]
    ASSERT bcm2835_init CRYPT_FAILED (fun rv => ⟨rv, context, bus1⟩) <|
    let bus2 := bus1 ++ [bcm2835.spi_begin]
    ASSERT bcm2835_spi_begin CRYPT_FAILED (fun rv => ⟨rv, context, bus2⟩) <|
    let bus3 := bus2 ++ [bcm2835.spi_setClockDivider]
    let ctx1 := { ctx with initialised := true }
    let ctx2 := { ctx1 with secretKey := ctx1.secretKey.set 0 0 }
    ⟨rv, some ctx2, bus3⟩

/-- The function `crypt_set_key` (crypt2.c:64). -/
def crypt_set_key (CRYPT_FAILED rv : Int) (bus : List bcm2835)
    (context : Option crypt_context_t) (secretKey : Option (List CChar)) : crypt_result :=
  match context with
  | none => ⟨CRYPT_FAILED, context, bus⟩
  | some ctx =>
    match secretKey with
    | none => ⟨CRYPT_FAILED, context, bus⟩
    | some key =>
      ASSERT ctx.initialised CRYPT_FAILED (fun rv => ⟨rv, context, bus⟩) <|
      ⟨rv, some { ctx with secretKey := memcpy ctx.secretKey key 32 }, bus⟩

/-- The clean-up at `_err` of `crypt_aes_dec` (crypt2.c:107-108) when the jump
comes from one of the first five assertions, which stand before the
declaration `gcry_cipher_hd_t gcryCipherHd = NULL;` (crypt2.c:90): the
initialiser has been skipped and `gcryCipherHd` holds an indeterminate value.
When that value is null nothing is closed and `r` is returned; otherwise
`gcry_cipher_close` receives a value that `gcry_cipher_open` never gave, the
behaviour is undefined (the library may abort) and nothing is returned. -/
def close_indeterminate (gcryCipherHd : Option Nat) (r : dec_result) : Option dec_result :=
  match gcryCipherHd with
  | none => some r
  | some _ => none

/-- The function `crypt_aes_dec` (crypt2.c:80). `gcryCipherHd` is the indeterminate value the
local of that name holds at `_err` when a jump has skipped its initialiser;
`none` is the outcome of a call that does not return (see
`close_indeterminate`). -/
def crypt_aes_dec (CRYPT_FAILED rv : Int) (g : Gcrypt) (gcryCipherHd : Option Nat)
    (context : Option crypt_context_t) (encBuffer : Option (List CChar)) (outBuffer : out_ptr)
    (buffLen : Nat) (iniVector : Option (List CChar)) : Option dec_result :=
  match context with
  | none =>
    close_indeterminate gcryCipherHd ⟨CRYPT_FAILED, context, outBuffer.contents context, none⟩
  | some ctx =>
    match encBuffer with
    | none =>
      close_indeterminate gcryCipherHd ⟨CRYPT_FAILED, context, outBuffer.contents context, none⟩
    | some enc =>
      match outBuffer.contents context with
      | none => close_indeterminate gcryCipherHd ⟨CRYPT_FAILED, context, none, none⟩
      | some out =>
        match iniVector with
        | none => close_indeterminate gcryCipherHd ⟨CRYPT_FAILED, context, some out, none⟩
        | some iv =>
          ASSERT ctx.initialised CRYPT_FAILED
            (fun rv => close_indeterminate gcryCipherHd ⟨rv, context, some out, none⟩) <|
          let hd := g.cipher_open.2
          ASSERT (g.cipher_open.1 == 0) CRYPT_FAILED
            (fun rv => some ⟨rv, context, some out, hd⟩) <|
          ASSERT (g.cipher_setkey ctx.secretKey g.keylen == 0) CRYPT_FAILED
            (fun rv => some ⟨rv, context, some out, hd⟩) <|
          ASSERT (g.cipher_setiv iv g.blklen == 0) CRYPT_FAILED
            (fun rv => some ⟨rv, context, some out, hd⟩) <|
          let dec := g.cipher_decrypt ctx.secretKey iv out enc buffLen
          let ctx1 := outBuffer.store ctx dec.2
          ASSERT (dec.1 == 0) CRYPT_FAILED
            (fun rv => some ⟨rv, some ctx1, some dec.2, hd⟩) <|
          some ⟨rv, some ctx1, some dec.2, hd⟩

/-- The function `crypt_sha_aes_sign` (crypt2.c:116). `writeData` and `readData` are the
contents of the two uninitialised 74-byte locals on entry; `R` is the frame
the device shifts back during the transfer, which `bcm2835_spi_transfernb`
stores in the first `len` bytes of its receive buffer. -/
def crypt_sha_aes_sign (CRYPT_FAILED rv : Int) (writeData readData R : List CChar)
    (bus : List bcm2835) (context : Option crypt_context_t)
    (inBuffer : Option (List CChar)) (encBuffer : out_ptr) (buffLen : Nat)
    (iniVector : Option (List CChar)) : sign_result :=
  match context with
  | none => ⟨CRYPT_FAILED, context, encBuffer.contents context, bus⟩
  | some ctx =>
    match inBuffer with
    | none => ⟨CRYPT_FAILED, context, encBuffer.contents context, bus⟩
    | some inb =>
      match encBuffer.contents context with
      | none => ⟨CRYPT_FAILED, context, none, bus⟩
      | some enc =>
        match iniVector with
        | none => ⟨CRYPT_FAILED, context, some enc, bus⟩
        | some _ =>
          ASSERT ctx.initialised CRYPT_FAILED (fun rv => ⟨rv, context, some enc, bus⟩) <|
          let writeData1 := memcpy writeData inb 32
          let bus1 := bus ++ [bcm2835.spi_transfernb writeData1 74]
          let readData1 := memcpy readData R 74
          let enc1 := memcpy enc (readData1.drop 42) 32
          ⟨rv, some (encBuffer.store ctx enc1), some enc1, bus1⟩

/-- The function `crypt_terminate` (crypt2.c:139). -/
def crypt_terminate (CRYPT_FAILED rv : Int) (bus : List bcm2835)
    (context : Option crypt_context_t) : crypt_result :=
  match context with
  | none => ⟨CRYPT_FAILED, context, bus⟩
  | some ctx =>
    ASSERT ctx.initialised CRYPT_FAILED (fun rv => ⟨rv, context, bus⟩) <|
    let bus1 := bus ++ [bcm2835.spi_end, bcm2835.close]
    ⟨rv, some { ctx with initialised := false }, bus1⟩

/-! ## Successive calls on one session -/

/-- The session object and the bus log, as threaded through successive calls. -/
structure session where
  context : Option crypt_context_t
  bus : List bcm2835
deriving DecidableEq

/-- One call of an operation of `crypt2.c` other than `crypt_initialise`, with
all its arguments and the values its environment supplies. -/
inductive Call where
  | set_key (rv : Int) (secretKey : Option (List CChar))
  | aes_dec (rv : Int) (g : Gcrypt) (gcryCipherHd : Option Nat)
      (encBuffer : Option (List CChar)) (outBuffer : out_ptr) (buffLen : Nat)
      (iniVector : Option (List CChar))
  | sha_aes_sign (rv : Int) (writeData readData R : List CChar)
      (inBuffer : Option (List CChar)) (encBuffer : out_ptr) (buffLen : Nat)
      (iniVector : Option (List CChar))
  | terminate (rv : Int)

/-- Performs one call on the session: the value returned and the session
afterwards, or `none` when the call does not return. -/
def Call.run (CRYPT_FAILED : Int) (s : session) : Call → Option (Int × session)
  | .set_key rv secretKey =>
    let r := crypt_set_key CRYPT_FAILED rv s.bus s.context secretKey
    some (r.rv, ⟨r.context, r.bus⟩)
  | .aes_dec rv g gcryCipherHd encBuffer outBuffer buffLen iniVector =>
    (crypt_aes_dec CRYPT_FAILED rv g gcryCipherHd s.context encBuffer outBuffer
      buffLen iniVector).map (fun r => (r.rv, ⟨r.context, s.bus⟩))
  | .sha_aes_sign rv writeData readData R inBuffer encBuffer buffLen iniVector =>
    let r := crypt_sha_aes_sign CRYPT_FAILED rv writeData readData R s.bus s.context
      inBuffer encBuffer buffLen iniVector
    some (r.rv, ⟨r.context, r.bus⟩)
  | .terminate rv =>
    let r := crypt_terminate CRYPT_FAILED rv s.bus s.context
    some (r.rv, ⟨r.context, r.bus⟩)

/-- Performs the calls in order, as long as they return: the values returned,
in order, and the final session. -/
def runCalls (CRYPT_FAILED : Int) (s : session) : List Call → Option (List Int × session)
  | [] => some ([], s)
  | c :: cs =>
    match c.run CRYPT_FAILED s with
    | none => none
    | some r =>
      match runCalls CRYPT_FAILED r.2 cs with
      | none => none
      | some rs => some (r.1 :: rs.1, rs.2)

/-- Calls of `crypt_sha_aes_sign`. -/
def Call.isSign : Call → Bool
  | .sha_aes_sign .. => true
  | _ => false

/-- Calls of `crypt_sha_aes_sign` or `crypt_aes_dec` whose output buffer does
not overlap the session. -/
def Call.isDisjointSignOrDec : Call → Bool
  | .sha_aes_sign _ _ _ _ _ encBuffer _ _ => decide (encBuffer ≠ out_ptr.secretKey)
  | .aes_dec _ _ _ _ outBuffer _ _ => decide (outBuffer ≠ out_ptr.secretKey)
  | _ => false

/-- The outbound frames of the transfers recorded in a bus log, with their lengths. -/
def transfers : List bcm2835 → List (List CChar × Nat)
  | [] => []
  | bcm2835.spi_transfernb tbuf len :: es => (tbuf, len) :: transfers es
  | _ :: es => transfers es

/-! ## The benchmark harnesses -/

/-- Digits of the `x` conversion of `printf` (external C library), most
significant first, pushed in front of `acc`; `fuel` bounds the number of
digits. -/
def hexDigitsAux : Nat → Nat → List Char → List Char
  | 0, _, acc => acc
  | fuel + 1, n, acc =>
    if n < 16 then Nat.digitChar n :: acc
    else hexDigitsAux fuel (n / 16) (Nat.digitChar (n % 16) :: acc)

/-- The conversion `%0<width>x` of `printf` applied to the argument `v`, read as a 32-bit
`unsigned int`: its lower-case hexadecimal digits, left-padded with `0` up to
`width` characters. -/
def fmt_x (width v : Nat) : List Char :=
  let ds := hexDigitsAux 8 (v % 2 ^ 32) []
  List.replicate (width - ds.length) '0' ++ ds

/-- The call `sprintf(&buf[off], "%04x", v)`: the converted characters and a terminating
NUL are stored from offset `off`; `none` when the write would go past the end
of `buf`. -/
def sprintf_04x (buf : List Char) (off v : Nat) : Option (List Char) :=
  let s := fmt_x 4 v ++ [Char.ofNat 0]
  if off + s.length ≤ buf.length then
    some (buf.take off ++ s ++ buf.drop (off + s.length))
  else none

/-- Lines 62-69 of the Pi harness: `rand k` is the value of the `k`-th call of
`rand()` in the iteration. -/
def acquire_pi (rand : Nat → Nat) (readings : List Char) : Option (List Char) := do
  let readings ← sprintf_04x readings 0 (rand 0 &&& 0xffff)
  let readings ← sprintf_04x readings 4 (rand 1 &&& 0xffff)
  let readings ← sprintf_04x readings 8 (rand 2 &&& 0xffff)
  let readings ← sprintf_04x readings 12 (rand 3 &&& 0xffff)
  let readings ← sprintf_04x readings 16 (rand 4 &&& 0xffff)
  let readings ← sprintf_04x readings 20 (rand 5 &&& 0xffff)
  let readings ← sprintf_04x readings 24 (rand 6 &&& 0xffff)
  sprintf_04x readings 28 (rand 7 &&& 0xffff)

/-- Lines 63-70 of the Galileo harness: `aio k` is the value of the `k`-th call
of `mraa_aio_read(aio0)` in the iteration, as the conversion reads it. -/
def acquire_galileo (aio : Nat → Nat) (readings : List Char) : Option (List Char) := do
  let readings ← sprintf_04x readings 0 (aio 0)
  let readings ← sprintf_04x readings 4 (aio 1)
  let readings ← sprintf_04x readings 8 (aio 2)
  let readings ← sprintf_04x readings 12 (aio 3)
  let readings ← sprintf_04x readings 16 (aio 4)
  let readings ← sprintf_04x readings 20 (aio 5)
  let readings ← sprintf_04x readings 24 (aio 6)
  sprintf_04x readings 28 (aio 7)

/-- The call `fprintf(opf, "%s\n", readings)`: the characters before the first NUL, then a
newline; `none` when the buffer holds no NUL. -/
def fprintf_s (readings : List Char) : Option (List Char) :=
  if Char.ofNat 0 ∈ readings then
    some (readings.takeWhile (fun c => c != Char.ofNat 0) ++ ['\n'])
  else none

/-- The C operator `&` on two values of type `int` (32 bits, two's complement):
the bitwise and of the two representations, read back as a signed value. -/
def int_and (a b : Int) : Int :=
  let r : Nat := (a % 2 ^ 32).toNat &&& (b % 2 ^ 32).toNat
  if r < 2 ^ 31 then (r : Int) else (r : Int) - 2 ^ 32

/-- The loop `for(j = 0; j < 32; j++) fprintf(opf, "%02x", encBuff[j] & 0xff)`. -/
def fprintf_encBuff (encBuff : List CChar) : List Char :=
  (List.range 32).flatMap (fun j => fmt_x 2 (int_and (encBuff.getD j 0) 0xff).toNat)

/-- "Save findings to file" (Pi lines 80-83, Galileo lines 81-84): the
characters appended to the file in one iteration. -/
def save_findings (readings : List Char) (encBuff : List CChar) : Option (List Char) :=
  (fprintf_s readings).map (fun line => line ++ fprintf_encBuff encBuff ++ ['\n'])

/-- One iteration of the Pi loop, as far as the file is concerned: `readings`
is the 33-byte payload buffer on entry, `encBuff` the result buffer as the
signing call leaves it. Gives the payload buffer afterwards and the characters
written to the file, or `none` when a write leaves the payload buffer. -/
def main_pi_iteration (rand : Nat → Nat) (readings : List Char) (encBuff : List CChar) :
    Option (List Char × List Char) := do
  let readings ← acquire_pi rand readings
  let out ← save_findings readings encBuff
  pure (readings, out)

/-- One iteration of the Galileo loop, as `main_pi_iteration`. -/
def main_galileo_iteration (aio : Nat → Nat) (readings : List Char) (encBuff : List CChar) :
    Option (List Char × List Char) := do
  let readings ← acquire_galileo aio readings
  let out ← save_findings readings encBuff
  pure (readings, out)

/-- Lower-case hexadecimal digit of value `d`. -/
def hexChar (d : Nat) : Char :=
  ("0123456789abcdef".toList).getD d '0'

/-- Four zero-padded lower-case hexadecimal digits of `v`. -/
def hex4 (v : Nat) : List Char :=
  [hexChar (v / 4096 % 16), hexChar (v / 256 % 16), hexChar (v / 16 % 16), hexChar (v % 16)]

/-- Two lower-case hexadecimal digits of the unsigned value of the byte `c`. -/
def hex2 (c : CChar) : List Char :=
  [hexChar ((c % 256).toNat / 16), hexChar ((c % 256).toNat % 16)]

/-- Eight groups of four hexadecimal digits, group `k` rendering `v k`. -/
def groups (v : Nat → Nat) : List Char :=
  hex4 (v 0) ++ hex4 (v 1) ++ hex4 (v 2) ++ hex4 (v 3) ++ hex4 (v 4) ++ hex4 (v 5) ++
    hex4 (v 6) ++ hex4 (v 7)

/-- The record the file format prescribes for the values `v 0 .. v 7` and the
result bytes `encBuff`: the eight groups, a newline, two hexadecimal digits per
result byte, a newline. -/
def record (v : Nat → Nat) (encBuff : List CChar) : List Char :=
  groups v ++ ['\n'] ++ encBuff.flatMap hex2 ++ ['\n']

/-- The C type `struct timeval`. -/
structure timeval where
  tv_sec : Int
  tv_usec : Int
deriving DecidableEq

/-- The accumulation `total += (now.tv_usec - then.tv_usec)` over the iterations of the
loop, from `total = 0`; each pair is `(then, now)` of one iteration. The
timestamps have microseconds in `[0, 1000000)` and there are 128 iterations, so
the machine type `suseconds_t` does not overflow. -/
def main_total (ts : List (timeval × timeval)) : Int :=
  ts.foldl (fun total p => total + (p.2.tv_usec - p.1.tv_usec)) 0

/-- The figure `total / ITERS` printed as "Elapsed time per iter" (C division). -/
def main_per_iter (total : Int) : Int :=
  Int.tdiv total 128

/-- Elapsed microseconds between two timestamps. -/
def elapsed_us (t n : timeval) : Int :=
  (n.tv_sec - t.tv_sec) * 1000000 + (n.tv_usec - t.tv_usec)

/-- A timestamp as `gettimeofday` gives it: microseconds in `[0, 1000000)`. -/
def timeval.wf (t : timeval) : Bool :=
  decide (0 ≤ t.tv_usec) && decide (t.tv_usec < 1000000)

/-- The order of timestamps: `t` is not later than `n`. -/
def timeval.le (t n : timeval) : Bool :=
  decide (t.tv_sec < n.tv_sec) || (decide (t.tv_sec = n.tv_sec) && decide (t.tv_usec ≤ n.tv_usec))

/-- The sum over the iterations of the elapsed microseconds. -/
def total_elapsed (ts : List (timeval × timeval)) : Int :=
  (ts.map (fun p => elapsed_us p.1 p.2)).sum

/-! ## Lemmas on the session operations -/

theorem memcpy_full (dst src : List CChar) (n : Nat) (hs : src.length = n)
    (hd : dst.length = n) : memcpy dst src n = src := by
  subst hs
  simp [memcpy, hd]

theorem memcpy_index (dst src : List CChar) (n i : Nat) (hs : n ≤ src.length) (hi : i < n) :
    (memcpy dst src n)[i]? = src[i]? := by
  unfold memcpy
  rw [List.getElem?_append_left (by simp; omega), List.getElem?_take_of_lt hi]

theorem transfers_append (es fs : List bcm2835) :
    transfers (es ++ fs) = transfers es ++ transfers fs := by
  induction es with
  | nil => rfl
  | cons e es ih => cases e <;> simp [transfers, ih]

theorem out_ptr.store_disjoint (ctx : crypt_context_t) (bytes : List CChar) (p : out_ptr)
    (hp : p ≠ out_ptr.secretKey) : p.store ctx bytes = ctx := by
  cases p with
  | null => rfl
  | obj b => rfl
  | secretKey => exact absurd rfl hp

/-- On a session that is not initialised `crypt_aes_dec` takes one of its early
exits: it returns `CRYPT_FAILED` with nothing changed when the indeterminate
handle is null, and does not return otherwise. -/
theorem crypt_aes_dec_uninitialised (F rv : Int) (g : Gcrypt) (hd : Option Nat)
    (ctx : crypt_context_t) (hi : ctx.initialised = false) (encBuffer : Option (List CChar))
    (outBuffer : out_ptr) (buffLen : Nat) (iniVector : Option (List CChar)) :
    crypt_aes_dec F rv g hd (some ctx) encBuffer outBuffer buffLen iniVector
      = close_indeterminate hd ⟨F, some ctx, outBuffer.contents (some ctx), none⟩ := by
  cases encBuffer <;> cases outBuffer <;> cases iniVector <;>
    simp [crypt_aes_dec, ASSERT, hi, out_ptr.contents]

theorem crypt_sha_aes_sign_context (F rv : Int) (wd rd R : List CChar) (bus : List bcm2835)
    (context : Option crypt_context_t) (inBuffer : Option (List CChar)) (encBuffer : out_ptr)
    (buffLen : Nat) (iniVector : Option (List CChar)) (henc : encBuffer ≠ out_ptr.secretKey) :
    (crypt_sha_aes_sign F rv wd rd R bus context inBuffer encBuffer buffLen iniVector).context
      = context := by
  cases context with
  | none => rfl
  | some ctx =>
    cases inBuffer with
    | none => rfl
    | some inb =>
      cases encBuffer with
      | null => rfl
      | secretKey => exact absurd rfl henc
      | obj b =>
        cases iniVector with
        | none => rfl
        | some iv =>
          cases hi : ctx.initialised <;>
            simp [crypt_sha_aes_sign, ASSERT, hi, out_ptr.contents, out_ptr.store]

theorem crypt_aes_dec_context (F rv : Int) (g : Gcrypt) (hd : Option Nat)
    (context : Option crypt_context_t) (encBuffer : Option (List CChar)) (outBuffer : out_ptr)
    (buffLen : Nat) (iniVector : Option (List CChar)) (hout : outBuffer ≠ out_ptr.secretKey)
    (r : dec_result)
    (hr : crypt_aes_dec F rv g hd context encBuffer outBuffer buffLen iniVector = some r) :
    r.context = context := by
  have hstray : ∀ r0 : dec_result, close_indeterminate hd r0 = some r → r = r0 := by
    intro r0 h
    cases hd with
    | none => simpa [close_indeterminate] using h.symm
    | some h0 => simp [close_indeterminate] at h
  cases context with
  | none => rw [hstray _ hr]
  | some ctx =>
    cases encBuffer with
    | none => rw [hstray _ hr]
    | some enc =>
      cases outBuffer with
      | null => rw [hstray _ hr]
      | secretKey => exact absurd rfl hout
      | obj out =>
        cases iniVector with
        | none => rw [hstray _ hr]
        | some iv =>
          simp only [crypt_aes_dec, ASSERT, out_ptr.contents, out_ptr.store] at hr
          split at hr
          · split at hr
            · split at hr
              · split at hr
                · split at hr <;> cases hr <;> rfl
                · cases hr; rfl
              · cases hr; rfl
            · cases hr; rfl
          · rw [hstray _ hr]

theorem Call.run_disjoint_context (F : Int) (s : session) (c : Call)
    (hc : c.isDisjointSignOrDec = true) (r : Int × session) (hr : c.run F s = some r) :
    r.2.context = s.context := by
  cases c with
  | set_key rv secretKey => simp [Call.isDisjointSignOrDec] at hc
  | terminate rv => simp [Call.isDisjointSignOrDec] at hc
  | aes_dec rv g hd encBuffer outBuffer buffLen iniVector =>
    simp only [Call.isDisjointSignOrDec, decide_eq_true_eq] at hc
    simp only [Call.run, Option.map_eq_some'] at hr
    obtain ⟨d, hd1, hd2⟩ := hr
    rw [← hd2]
    exact crypt_aes_dec_context F rv g hd s.context encBuffer outBuffer buffLen iniVector hc d hd1
  | sha_aes_sign rv wd rd R inBuffer encBuffer buffLen iniVector =>
    simp only [Call.isDisjointSignOrDec, decide_eq_true_eq] at hc
    simp only [Call.run, Option.some.injEq] at hr
    rw [← hr]
    exact crypt_sha_aes_sign_context F rv wd rd R s.bus s.context inBuffer encBuffer buffLen
      iniVector hc

theorem runCalls_disjoint_context (F : Int) (cs : List Call)
    (hcs : ∀ c ∈ cs, c.isDisjointSignOrDec = true) (s : session) (res : List Int × session)
    (hres : runCalls F s cs = some res) : res.2.context = s.context := by
  induction cs generalizing s res with
  | nil =>
    simp only [runCalls, Option.some.injEq] at hres
    rw [← hres]
  | cons c cs ih =>
    simp only [runCalls] at hres
    cases h1 : c.run F s with
    | none => simp [h1] at hres
    | some r =>
      rw [h1] at hres
      simp only at hres
      cases h2 : runCalls F r.2 cs with
      | none => simp [h2] at hres
      | some rs =>
        rw [h2] at hres
        simp only [Option.some.injEq] at hres
        rw [← hres]
        simp only
        rw [ih (fun c hc => hcs c (List.mem_cons_of_mem _ hc)) r.2 rs h2]
        exact Call.run_disjoint_context F s c (hcs c (List.mem_cons_self _ _)) r h1

theorem runCalls_sign_returns (F : Int) (cs : List Call) (hcs : ∀ c ∈ cs, c.isSign = true)
    (s : session) : ∃ res, runCalls F s cs = some res := by
  induction cs generalizing s with
  | nil => exact ⟨_, rfl⟩
  | cons c cs ih =>
    have hc := hcs c (List.mem_cons_self _ _)
    cases c with
    | set_key rv secretKey => simp [Call.isSign] at hc
    | terminate rv => simp [Call.isSign] at hc
    | aes_dec rv g hd encBuffer outBuffer buffLen iniVector => simp [Call.isSign] at hc
    | sha_aes_sign rv wd rd R inBuffer encBuffer buffLen iniVector =>
      obtain ⟨res, hres⟩ := ih (fun c hc => hcs c (List.mem_cons_of_mem _ hc))
        ⟨(crypt_sha_aes_sign F rv wd rd R s.bus s.context inBuffer encBuffer buffLen
            iniVector).context,
          (crypt_sha_aes_sign F rv wd rd R s.bus s.context inBuffer encBuffer buffLen
            iniVector).bus⟩
      simp only [runCalls, Call.run, hres]
      exact ⟨_, rfl⟩

/-! ## The signing exchange -/

/-- C1: on an initialised session, with a non-null plaintext, a non-null iv and
a 32-byte output buffer, `crypt_sha_aes_sign` leaves in the output buffer
exactly the 32 bytes `R[42..74)` of the 74-byte inbound frame `R`, in order:
`output[i] = R[42 + i]` for every `i < 32`. -/
theorem crypt_sha_aes_sign_result (CRYPT_FAILED rv : Int) (writeData readData R : List CChar)
    (bus : List bcm2835) (ctx : crypt_context_t) (P E iv : List CChar) (encBuffer : out_ptr)
    (buffLen : Nat) (hinit : ctx.initialised = true) (hP : P.length = 32)
    (hbuf : encBuffer.contents (some ctx) = some E) (hE : E.length = 32)
    (hR : R.length = 74) :
    ∃ out, (crypt_sha_aes_sign CRYPT_FAILED rv writeData readData R bus (some ctx) (some P)
        encBuffer buffLen (some iv)).encBuffer = some out ∧
      out.length = 32 ∧ out = R.drop 42 ∧ ∀ i, i < 32 → out[i]? = R[42 + i]? := by
  have hrd : memcpy readData R 74 = R ++ readData.drop 74 := by
    simp [memcpy, List.take_of_length_le (Nat.le_of_eq hR)]
  have hsrc : ((memcpy readData R 74).drop 42).take 32 = R.drop 42 := by
    rw [hrd, List.drop_append_of_le_length (by omega), List.take_append_of_le_length (by simp; omega)]
    exact List.take_of_length_le (by simp; omega)
  refine ⟨R.drop 42, ?_, by simp; omega, rfl, ?_⟩
  · simp only [crypt_sha_aes_sign, hbuf, ASSERT, hinit, if_true]
    simp only [memcpy] at hsrc ⊢
    rw [hsrc, List.drop_of_length_le (Nat.le_of_eq hE), List.append_nil]
  · intro i _
    simp [List.getElem?_drop]

/-- Witness for C1: an inbound frame whose bytes `[42, 74)` are all `0xAA`
yields 32 bytes of `0xAA`. -/
theorem crypt_sha_aes_sign_result_witness :
    (∃ out, (crypt_sha_aes_sign (-1) 0 (List.replicate 74 7) (List.replicate 74 9)
        (List.replicate 42 0 ++ List.replicate 32 0xAA) [] (some ⟨true, List.replicate 32 1⟩)
        (some (List.replicate 32 0)) (out_ptr.obj (List.replicate 32 5)) 32
        (some [97, 97, 97, 97])).encBuffer = some out ∧
      out.length = 32 ∧ out = (List.replicate 42 0 ++ List.replicate 32 0xAA).drop 42 ∧
      ∀ i, i < 32 → out[i]? = (List.replicate 42 0 ++ List.replicate 32 0xAA)[42 + i]?) ∧
    (crypt_sha_aes_sign (-1) 0 (List.replicate 74 7) (List.replicate 74 9)
        (List.replicate 42 0 ++ List.replicate 32 0xAA) [] (some ⟨true, List.replicate 32 1⟩)
        (some (List.replicate 32 0)) (out_ptr.obj (List.replicate 32 5)) 32
        (some [97, 97, 97, 97])).encBuffer = some (List.replicate 32 0xAA) :=
  ⟨crypt_sha_aes_sign_result (-1) 0 (List.replicate 74 7) (List.replicate 74 9)
      (List.replicate 42 0 ++ List.replicate 32 0xAA) [] ⟨true, List.replicate 32 1⟩
      (List.replicate 32 0) (List.replicate 32 5) [97, 97, 97, 97]
      (out_ptr.obj (List.replicate 32 5)) 32 rfl (by decide) rfl (by decide) (by decide),
    by decide⟩

/-- C2, as stated, fails: on an initialised session with a non-null 32-byte
plaintext, a call whose iv is `NULL`, or whose output buffer is `NULL`,
performs no bus transfer at all. -/
theorem crypt_sha_aes_sign_null_no_transfer :
    (crypt_sha_aes_sign (-1) 0 (List.replicate 74 7) (List.replicate 74 9)
        (List.replicate 74 0xAA) [] (some ⟨true, List.replicate 32 1⟩)
        (some (List.replicate 32 0xFF)) (out_ptr.obj (List.replicate 32 5)) 32 none)
      = ⟨-1, some ⟨true, List.replicate 32 1⟩, some (List.replicate 32 5), []⟩ ∧
    (crypt_sha_aes_sign (-1) 0 (List.replicate 74 7) (List.replicate 74 9)
        (List.replicate 74 0xAA) [] (some ⟨true, List.replicate 32 1⟩)
        (some (List.replicate 32 0xFF)) out_ptr.null 32 (some [97]))
      = ⟨-1, some ⟨true, List.replicate 32 1⟩, none, []⟩ ∧
    transfers ([] : List bcm2835) = [] := by
  decide

/-- C2, amended: on an initialised session, with a non-null 32-byte plaintext
`P`, a non-null output buffer and a non-null iv, `crypt_sha_aes_sign` adds to
the bus log exactly one event, a transfer of length 74 whose outbound frame `W`
has 74 bytes with `W[i] = P[i]` for every `i < 32`; the whole outcome is the
same for any two values of `buffLen`. -/
theorem crypt_sha_aes_sign_outbound (CRYPT_FAILED rv : Int) (writeData readData R : List CChar)
    (bus : List bcm2835) (ctx : crypt_context_t) (P iv : List CChar) (encBuffer : out_ptr)
    (buffLen : Nat) (hinit : ctx.initialised = true) (hP : P.length = 32)
    (hW : writeData.length = 74) (henc : encBuffer ≠ out_ptr.null) :
    ∃ W, (crypt_sha_aes_sign CRYPT_FAILED rv writeData readData R bus (some ctx) (some P)
        encBuffer buffLen (some iv)).bus = bus ++ [bcm2835.spi_transfernb W 74] ∧
      transfers (crypt_sha_aes_sign CRYPT_FAILED rv writeData readData R bus (some ctx) (some P)
        encBuffer buffLen (some iv)).bus = transfers bus ++ [(W, 74)] ∧
      W.length = 74 ∧ (∀ i, i < 32 → W[i]? = P[i]?) ∧
      ∀ buffLen2, crypt_sha_aes_sign CRYPT_FAILED rv writeData readData R bus (some ctx)
          (some P) encBuffer buffLen2 (some iv) =
        crypt_sha_aes_sign CRYPT_FAILED rv writeData readData R bus (some ctx) (some P)
          encBuffer buffLen (some iv) := by
  have hbus : (crypt_sha_aes_sign CRYPT_FAILED rv writeData readData R bus (some ctx) (some P)
      encBuffer buffLen (some iv)).bus
      = bus ++ [bcm2835.spi_transfernb (memcpy writeData P 32) 74] := by
    cases encBuffer with
    | null => exact absurd rfl henc
    | obj b => simp [crypt_sha_aes_sign, ASSERT, hinit, out_ptr.contents]
    | secretKey => simp [crypt_sha_aes_sign, ASSERT, hinit, out_ptr.contents]
  refine ⟨memcpy writeData P 32, hbus, ?_, ?_, ?_, ?_⟩
  · rw [hbus, transfers_append]
    rfl
  · simp [memcpy, hP, hW]
  · intro i hi
    exact memcpy_index writeData P 32 i (by omega) hi
  · intro buffLen2
    rfl

/-- Witness for C2 (amended): an all-`0xFF` plaintext. -/
theorem crypt_sha_aes_sign_outbound_witness :
    ∃ W, (crypt_sha_aes_sign (-1) 0 (List.replicate 74 7) (List.replicate 74 9)
        (List.replicate 74 0xAA) [] (some ⟨true, List.replicate 32 1⟩)
        (some (List.replicate 32 0xFF)) (out_ptr.obj (List.replicate 32 5)) 0
        (some [97])).bus = [] ++ [bcm2835.spi_transfernb W 74] ∧
      transfers (crypt_sha_aes_sign (-1) 0 (List.replicate 74 7) (List.replicate 74 9)
        (List.replicate 74 0xAA) [] (some ⟨true, List.replicate 32 1⟩)
        (some (List.replicate 32 0xFF)) (out_ptr.obj (List.replicate 32 5)) 0
        (some [97])).bus = transfers [] ++ [(W, 74)] ∧
      W.length = 74 ∧ (∀ i, i < 32 → W[i]? = (List.replicate 32 (0xFF : CChar))[i]?) ∧
      ∀ buffLen2, crypt_sha_aes_sign (-1) 0 (List.replicate 74 7) (List.replicate 74 9)
          (List.replicate 74 0xAA) [] (some ⟨true, List.replicate 32 1⟩)
          (some (List.replicate 32 0xFF)) (out_ptr.obj (List.replicate 32 5)) buffLen2
          (some [97]) =
        crypt_sha_aes_sign (-1) 0 (List.replicate 74 7) (List.replicate 74 9)
          (List.replicate 74 0xAA) [] (some ⟨true, List.replicate 32 1⟩)
          (some (List.replicate 32 0xFF)) (out_ptr.obj (List.replicate 32 5)) 0 (some [97]) :=
  crypt_sha_aes_sign_outbound (-1) 0 (List.replicate 74 7) (List.replicate 74 9)
    (List.replicate 74 0xAA) [] ⟨true, List.replicate 32 1⟩ (List.replicate 32 0xFF) [97]
    (out_ptr.obj (List.replicate 32 5)) 0 rfl (by decide) (by decide) (by decide)

/-! ## The session lifecycle -/

/-- C3 fails on the code: on a session whose `initialised` flag is false (here
with `CRYPT_FAILED = -1`), `crypt_sha_aes_sign`, `crypt_set_key` and
`crypt_terminate` return `CRYPT_FAILED`, but `crypt_aes_dec` jumps to `_err`
over the initialiser of `gcryCipherHd` and closes whatever that local holds: it
returns `CRYPT_FAILED` only when the indeterminate value is null, and with a
non-null value (here `7`) the call does not return. -/
theorem crypt_aes_dec_closes_indeterminate_handle :
    crypt_aes_dec (-1) 0 ⟨32, 16, (0, some 1), fun _ _ => 0, fun _ _ => 0,
        fun _ _ _ enc _ => (0, enc)⟩ (some 7) (some ⟨false, List.replicate 32 1⟩)
        (some (List.replicate 32 5)) (out_ptr.obj (List.replicate 32 4)) 32 (some [97])
      = none ∧
    crypt_aes_dec (-1) 0 ⟨32, 16, (0, some 1), fun _ _ => 0, fun _ _ => 0,
        fun _ _ _ enc _ => (0, enc)⟩ none (some ⟨false, List.replicate 32 1⟩)
        (some (List.replicate 32 5)) (out_ptr.obj (List.replicate 32 4)) 32 (some [97])
      = some ⟨-1, some ⟨false, List.replicate 32 1⟩, some (List.replicate 32 4), none⟩ ∧
    (crypt_sha_aes_sign (-1) 0 (List.replicate 74 7) (List.replicate 74 9)
        (List.replicate 74 0xAA) [] (some ⟨false, List.replicate 32 1⟩)
        (some (List.replicate 32 3)) (out_ptr.obj (List.replicate 32 5)) 32 (some [97])).rv
      = -1 ∧
    (crypt_set_key (-1) 0 [] (some ⟨false, List.replicate 32 1⟩)
        (some (List.replicate 32 2))).rv = -1 ∧
    (crypt_terminate (-1) 0 [] (some ⟨false, List.replicate 32 1⟩)).rv = -1 := by
  decide

/-- What `crypt_set_key` does to the session: on an initialised session with a
non-null 32-byte key `K` it stores `K` (`secretKey[i] = K[i]` for `i < 32`) and
keeps the flag, returning what `rv` holds when no assertion has failed; when
the session is null, the key is null or the session is not initialised, it
returns `CRYPT_FAILED` and leaves the session as it was. -/
theorem crypt_set_key_effect (CRYPT_FAILED rv : Int) (bus : List bcm2835)
    (ctx : crypt_context_t) (K : List CChar) (hinit : ctx.initialised = true)
    (hlen : ctx.secretKey.length = 32) (hK : K.length = 32) :
    (∃ ctx1, crypt_set_key CRYPT_FAILED rv bus (some ctx) (some K) = ⟨rv, some ctx1, bus⟩ ∧
      ctx1.secretKey = K ∧ (∀ i, i < 32 → ctx1.secretKey[i]? = K[i]?) ∧
      ctx1.initialised = ctx.initialised) ∧
    ∀ (context : Option crypt_context_t) (secretKey : Option (List CChar)),
      (context = none ∨ secretKey = none ∨
        ∃ c, context = some c ∧ c.initialised = false) →
      crypt_set_key CRYPT_FAILED rv bus context secretKey = ⟨CRYPT_FAILED, context, bus⟩ := by
  constructor
  · refine ⟨⟨ctx.initialised, K⟩, ?_, rfl, fun _ _ => rfl, rfl⟩
    simp [crypt_set_key, ASSERT, hinit, memcpy_full ctx.secretKey K 32 hK hlen]
  · intro context secretKey h
    cases context with
    | none => rfl
    | some c =>
      cases secretKey with
      | none => rfl
      | some key =>
        rcases h with h | h | ⟨c1, hc, hi⟩
        · cases h
        · cases h
        · cases hc
          simp [crypt_set_key, ASSERT, hi]

/-- C5 fails on the code: `crypt_set_key` never assigns `rv` when no assertion
fails, so the value it returns after storing the key is whatever the
uninitialised local holds. When that is the value of `CRYPT_FAILED` (here `-1`)
the call on an initialised session with a non-null 32-byte key returns
`CRYPT_FAILED` with all 32 bytes of `secretKey` replaced: the same value as the
call on an uninitialised session, which changes nothing. -/
theorem crypt_set_key_returns_unassigned_rv :
    crypt_set_key (-1) (-1) [] (some ⟨true, List.replicate 32 1⟩)
        (some (List.replicate 32 2)) = ⟨-1, some ⟨true, List.replicate 32 2⟩, []⟩ ∧
    crypt_set_key (-1) (-1) [] (some ⟨false, List.replicate 32 1⟩)
        (some (List.replicate 32 2)) = ⟨-1, some ⟨false, List.replicate 32 1⟩, []⟩ ∧
    crypt_set_key (-1) 12345 [] (some ⟨true, List.replicate 32 1⟩)
        (some (List.replicate 32 2)) = ⟨12345, some ⟨true, List.replicate 32 2⟩, []⟩ := by
  decide

/-- C6, as stated, fails: after a successful `crypt_initialise` of a session
whose key bytes were all `0xFF`, only byte 0 of `secretKey` is zero. -/
theorem crypt_initialise_keeps_key_tail :
    (crypt_initialise (-1) 0 true true [] (some ⟨false, List.replicate 32 0xFF⟩)).context
      = some ⟨true, 0 :: List.replicate 31 0xFF⟩ ∧
    (0 :: List.replicate 31 0xFF : List CChar)[1]? = some 0xFF ∧
    (0 :: List.replicate 31 0xFF : List CChar) ≠ List.replicate 32 0 := by
  decide

/-- C6, amended: for a non-null session with a 32-byte key of arbitrary
contents, when both bus set-up calls succeed `crypt_initialise` leaves the
session with `initialised = true`, `secretKey[0] = 0` and every other byte of
`secretKey` as it was. -/
theorem crypt_initialise_session (CRYPT_FAILED rv : Int) (bus : List bcm2835)
    (ctx : crypt_context_t) (hlen : ctx.secretKey.length = 32) :
    ∃ ctx1 bus1, crypt_initialise CRYPT_FAILED rv true true bus (some ctx)
        = ⟨rv, some ctx1, bus1⟩ ∧
      ctx1.initialised = true ∧ ctx1.secretKey.length = 32 ∧ ctx1.secretKey[0]? = some 0 ∧
      ∀ i, 0 < i → ctx1.secretKey[i]? = ctx.secretKey[i]? := by
  refine ⟨⟨true, ctx.secretKey.set 0 0⟩, _, rfl, rfl, by simp [hlen], ?_, ?_⟩
  · simp [List.getElem?_set, hlen]
  · intro i hi
    simp [List.getElem?_set]
    omega

/-- Witness for C6 (amended): a session whose key bytes were all `0xFF`. -/
theorem crypt_initialise_session_witness :
    ∃ ctx1 bus1, crypt_initialise (-1) 0 true true [] (some ⟨false, List.replicate 32 0xFF⟩)
        = ⟨0, some ctx1, bus1⟩ ∧
      ctx1.initialised = true ∧ ctx1.secretKey.length = 32 ∧ ctx1.secretKey[0]? = some 0 ∧
      ∀ i, 0 < i → ctx1.secretKey[i]?
        = (⟨false, List.replicate 32 0xFF⟩ : crypt_context_t).secretKey[i]? :=
  crypt_initialise_session (-1) 0 [] ⟨false, List.replicate 32 0xFF⟩ (by decide)

/-- C7, as stated, fails: the output pointer is only checked against `NULL`, so
a call whose output buffer is the session's own `secretKey` overwrites the key:
`crypt_sha_aes_sign` with the 32 result bytes of the inbound frame, and
`crypt_aes_dec` with the deciphered bytes. -/
theorem output_into_session_overwrites_key :
    (crypt_sha_aes_sign (-1) 0 (List.replicate 74 7) (List.replicate 74 9)
        (List.replicate 74 0xAA) [] (some ⟨true, List.replicate 32 1⟩)
        (some (List.replicate 32 3)) out_ptr.secretKey 32 (some [97])).context
      = some ⟨true, List.replicate 32 0xAA⟩ ∧
    (crypt_aes_dec (-1) 0 ⟨32, 16, (0, some 1), fun _ _ => 0, fun _ _ => 0,
        fun _ _ _ enc _ => (0, enc)⟩ none (some ⟨true, List.replicate 32 1⟩)
        (some (List.replicate 32 5)) out_ptr.secretKey 32 (some [97])).map
        (fun r => r.context)
      = some (some ⟨true, List.replicate 32 5⟩) := by
  decide

/-- C7, amended: when the output buffer does not overlap the session,
`crypt_sha_aes_sign` and `crypt_aes_dec` leave the session as it was (the
`initialised` flag and every byte of `secretKey`), for every session and all
other arguments, whether they succeed or fail; hence, after `crypt_set_key` has
stored a 32-byte key `K` in an initialised session, the key of the session is
still `K` after any finite sequence of such signing and deciphering calls that
return, and every sequence of signing calls does return. -/
theorem sign_and_dec_preserve_session (CRYPT_FAILED rv : Int)
    (writeData readData R : List CChar) (bus : List bcm2835)
    (context : Option crypt_context_t) (inBuffer decBuffer : Option (List CChar))
    (encBuffer outBuffer : out_ptr)
    (buffLen : Nat) (iniVector : Option (List CChar)) (g : Gcrypt) (gcryCipherHd : Option Nat)
    (ctx : crypt_context_t) (K : List CChar) (calls : List Call)
    (henc : encBuffer ≠ out_ptr.secretKey) (hout : outBuffer ≠ out_ptr.secretKey)
    (hinit : ctx.initialised = true) (hlen : ctx.secretKey.length = 32) (hK : K.length = 32)
    (hcalls : ∀ c ∈ calls, c.isDisjointSignOrDec = true) :
    (crypt_sha_aes_sign CRYPT_FAILED rv writeData readData R bus context inBuffer encBuffer
        buffLen iniVector).context = context ∧
    (∀ r, crypt_aes_dec CRYPT_FAILED rv g gcryCipherHd context decBuffer outBuffer buffLen
        iniVector = some r → r.context = context) ∧
    (crypt_set_key CRYPT_FAILED rv bus (some ctx) (some K)).context = some ⟨true, K⟩ ∧
    (∀ res, runCalls CRYPT_FAILED
        ⟨(crypt_set_key CRYPT_FAILED rv bus (some ctx) (some K)).context,
          (crypt_set_key CRYPT_FAILED rv bus (some ctx) (some K)).bus⟩ calls = some res →
      res.2.context = some ⟨true, K⟩) ∧
    ((∀ c ∈ calls, c.isSign = true) →
      ∃ res, runCalls CRYPT_FAILED
        ⟨(crypt_set_key CRYPT_FAILED rv bus (some ctx) (some K)).context,
          (crypt_set_key CRYPT_FAILED rv bus (some ctx) (some K)).bus⟩ calls = some res ∧
        res.2.context = some ⟨true, K⟩) := by
  have hset : (crypt_set_key CRYPT_FAILED rv bus (some ctx) (some K)).context
      = some ⟨true, K⟩ := by
    simp [crypt_set_key, ASSERT, hinit, memcpy_full ctx.secretKey K 32 hK hlen]
  have hrun : ∀ res, runCalls CRYPT_FAILED
      ⟨(crypt_set_key CRYPT_FAILED rv bus (some ctx) (some K)).context,
        (crypt_set_key CRYPT_FAILED rv bus (some ctx) (some K)).bus⟩ calls = some res →
      res.2.context = some ⟨true, K⟩ := by
    intro res hres
    rw [runCalls_disjoint_context CRYPT_FAILED calls hcalls _ res hres]
    exact hset
  refine ⟨crypt_sha_aes_sign_context _ _ _ _ _ _ _ _ _ _ _ henc,
    fun r hr => crypt_aes_dec_context _ _ _ _ _ _ _ _ _ hout r hr, hset, hrun, ?_⟩
  intro hsign
  obtain ⟨res, hres⟩ := runCalls_sign_returns CRYPT_FAILED calls hsign
    ⟨(crypt_set_key CRYPT_FAILED rv bus (some ctx) (some K)).context,
      (crypt_set_key CRYPT_FAILED rv bus (some ctx) (some K)).bus⟩
  exact ⟨res, hres, hrun res hres⟩

/-- Witness for C7 (amended): two signing calls after a set-key. -/
theorem sign_and_dec_preserve_session_witness :
    (crypt_sha_aes_sign (-1) 0 (List.replicate 74 7) (List.replicate 74 9)
        (List.replicate 74 0xAA) [] (some ⟨true, List.replicate 32 1⟩)
        (some (List.replicate 32 3)) (out_ptr.obj (List.replicate 32 5)) 32
        (some [97])).context = some ⟨true, List.replicate 32 1⟩ ∧
    (∀ r, crypt_aes_dec (-1) 0 ⟨32, 16, (0, some 1), fun _ _ => 0, fun _ _ => 0,
        fun _ _ _ enc _ => (0, enc)⟩ none (some ⟨true, List.replicate 32 1⟩)
        (some (List.replicate 32 5)) (out_ptr.obj (List.replicate 32 4)) 32 (some [97])
        = some r → r.context = some ⟨true, List.replicate 32 1⟩) ∧
    (crypt_set_key (-1) 0 [] (some ⟨true, List.replicate 32 1⟩)
        (some (List.replicate 32 2))).context = some ⟨true, List.replicate 32 2⟩ ∧
    (∀ res, runCalls (-1)
        ⟨(crypt_set_key (-1) 0 [] (some ⟨true, List.replicate 32 1⟩)
            (some (List.replicate 32 2))).context,
          (crypt_set_key (-1) 0 [] (some ⟨true, List.replicate 32 1⟩)
            (some (List.replicate 32 2))).bus⟩
        [Call.sha_aes_sign 0 (List.replicate 74 7) (List.replicate 74 9)
            (List.replicate 74 0xAA) (some (List.replicate 32 3))
            (out_ptr.obj (List.replicate 32 5)) 32 (some [97]),
          Call.sha_aes_sign 0 (List.replicate 74 7) (List.replicate 74 9)
            (List.replicate 74 0xBB) (some (List.replicate 32 4))
            (out_ptr.obj (List.replicate 32 5)) 32 (some [98])] = some res →
      res.2.context = some ⟨true, List.replicate 32 2⟩) ∧
    ((∀ c ∈ [Call.sha_aes_sign 0 (List.replicate 74 7) (List.replicate 74 9)
            (List.replicate 74 0xAA) (some (List.replicate 32 3))
            (out_ptr.obj (List.replicate 32 5)) 32 (some [97]),
          Call.sha_aes_sign 0 (List.replicate 74 7) (List.replicate 74 9)
            (List.replicate 74 0xBB) (some (List.replicate 32 4))
            (out_ptr.obj (List.replicate 32 5)) 32 (some [98])], c.isSign = true) →
      ∃ res, runCalls (-1)
        ⟨(crypt_set_key (-1) 0 [] (some ⟨true, List.replicate 32 1⟩)
            (some (List.replicate 32 2))).context,
          (crypt_set_key (-1) 0 [] (some ⟨true, List.replicate 32 1⟩)
            (some (List.replicate 32 2))).bus⟩
        [Call.sha_aes_sign 0 (List.replicate 74 7) (List.replicate 74 9)
            (List.replicate 74 0xAA) (some (List.replicate 32 3))
            (out_ptr.obj (List.replicate 32 5)) 32 (some [97]),
          Call.sha_aes_sign 0 (List.replicate 74 7) (List.replicate 74 9)
            (List.replicate 74 0xBB) (some (List.replicate 32 4))
            (out_ptr.obj (List.replicate 32 5)) 32 (some [98])] = some res ∧
        res.2.context = some ⟨true, List.replicate 32 2⟩) :=
  sign_and_dec_preserve_session (-1) 0 (List.replicate 74 7) (List.replicate 74 9)
    (List.replicate 74 0xAA) [] (some ⟨true, List.replicate 32 1⟩)
    (some (List.replicate 32 3)) (some (List.replicate 32 5))
    (out_ptr.obj (List.replicate 32 5)) (out_ptr.obj (List.replicate 32 4)) 32
    (some [97]) ⟨32, 16, (0, some 1), fun _ _ => 0, fun _ _ => 0, fun _ _ _ enc _ => (0, enc)⟩
    none ⟨true, List.replicate 32 1⟩ (List.replicate 32 2)
    [Call.sha_aes_sign 0 (List.replicate 74 7) (List.replicate 74 9)
        (List.replicate 74 0xAA) (some (List.replicate 32 3))
        (out_ptr.obj (List.replicate 32 5)) 32 (some [97]),
      Call.sha_aes_sign 0 (List.replicate 74 7) (List.replicate 74 9)
        (List.replicate 74 0xBB) (some (List.replicate 32 4))
        (out_ptr.obj (List.replicate 32 5)) 32 (some [98])]
    (by decide) (by decide) rfl (by decide) (by decide) (by simp [Call.isDisjointSignOrDec])

/-- C8, as stated, fails: with everything else equal, a `NULL` iv makes
`crypt_sha_aes_sign` fail without a transfer and without writing the result,
while a non-null iv lets it perform the transfer and write the result. -/
theorem crypt_sha_aes_sign_null_iv_differs :
    crypt_sha_aes_sign (-1) 0 (List.replicate 74 7) (List.replicate 74 9)
        (List.replicate 74 0xAA) [] (some ⟨true, List.replicate 32 1⟩)
        (some (List.replicate 32 3)) (out_ptr.obj (List.replicate 32 5)) 32 none
      = ⟨-1, some ⟨true, List.replicate 32 1⟩, some (List.replicate 32 5), []⟩ ∧
    crypt_sha_aes_sign (-1) 0 (List.replicate 74 7) (List.replicate 74 9)
        (List.replicate 74 0xAA) [] (some ⟨true, List.replicate 32 1⟩)
        (some (List.replicate 32 3)) (out_ptr.obj (List.replicate 32 5)) 32 (some [97])
      = ⟨0, some ⟨true, List.replicate 32 1⟩, some (List.replicate 32 0xAA),
          [bcm2835.spi_transfernb (List.replicate 32 3 ++ List.replicate 42 7) 74]⟩ := by
  decide

/-- C8, amended: the iv argument of `crypt_sha_aes_sign` matters only through
being `NULL` or not: for every session, plaintext, output buffer and bus
response, two runs whose iv arguments are both null or both non-null have the
same outcome (return value, result buffer, session and bus log, hence the same
outbound frame). -/
theorem crypt_sha_aes_sign_iv_ignored (CRYPT_FAILED rv : Int)
    (writeData readData R : List CChar) (bus : List bcm2835)
    (context : Option crypt_context_t) (inBuffer : Option (List CChar)) (encBuffer : out_ptr)
    (buffLen : Nat) (iv1 iv2 : Option (List CChar)) (hiv : iv1.isSome = iv2.isSome) :
    crypt_sha_aes_sign CRYPT_FAILED rv writeData readData R bus context inBuffer encBuffer
        buffLen iv1 =
      crypt_sha_aes_sign CRYPT_FAILED rv writeData readData R bus context inBuffer encBuffer
        buffLen iv2 := by
  cases iv1 <;> cases iv2 <;> simp at hiv <;>
    cases context <;> cases inBuffer <;> cases encBuffer <;> rfl

/-- Witness for C8 (amended): the iv string of the harness against another one. -/
theorem crypt_sha_aes_sign_iv_ignored_witness :
    crypt_sha_aes_sign (-1) 0 (List.replicate 74 7) (List.replicate 74 9)
        (List.replicate 74 0xAA) [] (some ⟨true, List.replicate 32 1⟩)
        (some (List.replicate 32 3)) (out_ptr.obj (List.replicate 32 5)) 32
        (some [97, 97, 97, 97, 98, 98, 98, 98, 99, 99, 99, 99, 100, 100, 100, 100, 0]) =
      crypt_sha_aes_sign (-1) 0 (List.replicate 74 7) (List.replicate 74 9)
        (List.replicate 74 0xAA) [] (some ⟨true, List.replicate 32 1⟩)
        (some (List.replicate 32 3)) (out_ptr.obj (List.replicate 32 5)) 32
        (some (List.replicate 16 0)) :=
  crypt_sha_aes_sign_iv_ignored (-1) 0 (List.replicate 74 7) (List.replicate 74 9)
    (List.replicate 74 0xAA) [] (some ⟨true, List.replicate 32 1⟩)
    (some (List.replicate 32 3)) (out_ptr.obj (List.replicate 32 5)) 32
    (some [97, 97, 97, 97, 98, 98, 98, 98, 99, 99, 99, 99, 100, 100, 100, 100, 0])
    (some (List.replicate 16 0)) rfl

/-! ## The record written by the harnesses -/

theorem digitChar_eq_hexChar (d : Nat) (hd : d < 16) : Nat.digitChar d = hexChar d := by
  interval_cases d <;> rfl

theorem hexChar_ne_nul (d : Nat) : hexChar d ≠ Char.ofNat 0 := by
  by_cases hd : d < 16
  · interval_cases d <;> decide
  · have : hexChar d = '0' := by
      unfold hexChar
      exact List.getD_eq_default _ _ (by simp; omega)
    rw [this]
    decide

theorem fmt_x_4 (v : Nat) (hv : v < 65536) : fmt_x 4 v = hex4 v := by
  have hmod : v % 2 ^ 32 = v := Nat.mod_eq_of_lt (by omega)
  unfold fmt_x hex4
  rw [hmod]
  by_cases h1 : v < 16
  · have e1 : v / 4096 % 16 = 0 := by omega
    have e2 : v / 256 % 16 = 0 := by omega
    have e3 : v / 16 % 16 = 0 := by omega
    have e4 : v % 16 = v := by omega
    simp [hexDigitsAux, h1, e1, e2, e3, e4, digitChar_eq_hexChar v h1]
    rfl
  · by_cases h2 : v / 16 < 16
    · have e1 : v / 4096 % 16 = 0 := by omega
      have e2 : v / 256 % 16 = 0 := by omega
      have e3 : v / 16 % 16 = v / 16 := by omega
      simp [hexDigitsAux, h1, h2, e1, e2, e3, digitChar_eq_hexChar (v / 16) h2,
        digitChar_eq_hexChar (v % 16) (by omega)]
      rfl
    · by_cases h3 : v / 16 / 16 < 16
      · have e1 : v / 4096 % 16 = 0 := by omega
        have e2 : v / 256 % 16 = v / 16 / 16 := by omega
        simp [hexDigitsAux, h1, h2, h3, e1, e2, digitChar_eq_hexChar (v / 16 / 16) h3,
          digitChar_eq_hexChar (v / 16 % 16) (by omega),
          digitChar_eq_hexChar (v % 16) (by omega)]
        rfl
      · have h4 : v / 16 / 16 / 16 < 16 := by omega
        have e1 : v / 4096 % 16 = v / 16 / 16 / 16 := by omega
        have e2 : v / 256 % 16 = v / 16 / 16 % 16 := by omega
        simp [hexDigitsAux, h1, h2, h3, h4, e1, e2,
          digitChar_eq_hexChar (v / 16 / 16 / 16) h4,
          digitChar_eq_hexChar (v / 16 / 16 % 16) (by omega),
          digitChar_eq_hexChar (v / 16 % 16) (by omega),
          digitChar_eq_hexChar (v % 16) (by omega)]

theorem fmt_x_2 (b : Nat) (hb : b < 256) : fmt_x 2 b = [hexChar (b / 16), hexChar (b % 16)] := by
  have hmod : b % 2 ^ 32 = b := Nat.mod_eq_of_lt (by omega)
  unfold fmt_x
  rw [hmod]
  by_cases h1 : b < 16
  · have e1 : b / 16 = 0 := by omega
    have e4 : b % 16 = b := by omega
    simp [hexDigitsAux, h1, e1, e4, digitChar_eq_hexChar b h1]
    rfl
  · have h2 : b / 16 < 16 := by omega
    simp [hexDigitsAux, h1, h2, digitChar_eq_hexChar (b / 16) h2,
      digitChar_eq_hexChar (b % 16) (by omega)]

theorem int_and_0xff (c : Int) : (int_and c 0xff).toNat = (c % 256).toNat := by
  have h255 : ((0xff : Int) % 2 ^ 32).toNat = 2 ^ 8 - 1 := by decide
  unfold int_and
  simp only [h255, Nat.and_pow_two_sub_one_eq_mod]
  have hlt : (c % 2 ^ 32).toNat % 2 ^ 8 < 2 ^ 31 := by omega
  rw [if_pos hlt]
  omega

theorem fmt_x_2_byte (c : CChar) : fmt_x 2 (int_and c 0xff).toNat = hex2 c := by
  rw [int_and_0xff, fmt_x_2 _ (by omega)]
  rfl

theorem fprintf_encBuff_eq (encBuff : List CChar) (h : encBuff.length = 32) :
    fprintf_encBuff encBuff = encBuff.flatMap hex2 := by
  unfold fprintf_encBuff
  simp only [fmt_x_2_byte]
  have : encBuff = (List.range 32).map (fun j => encBuff.getD j 0) := by
    apply List.ext_getElem
    · simp [h]
    · intro i h1 h2
      simp [List.getElem?_eq_getElem h1]
  conv_rhs => rw [this]
  simp [List.flatMap, List.map_map, Function.comp_def]

theorem sprintf_04x_step (pre rest : List Char) (c : Char) (off v : Nat) (hv : v < 65536)
    (hoff : off = pre.length) (hrest : 4 ≤ rest.length) :
    sprintf_04x (pre ++ c :: rest) off v
      = some ((pre ++ hex4 v) ++ Char.ofNat 0 :: rest.drop 4) := by
  subst hoff
  unfold sprintf_04x
  rw [fmt_x_4 v hv]
  have hl : (hex4 v ++ [Char.ofNat 0]).length = 5 := by simp [hex4]
  simp only [hl]
  rw [if_pos (by simp; omega)]
  simp [List.take_append_eq_append_take, List.drop_append_eq_append_drop]

theorem acquire_galileo_eq (aio : Nat → Nat) (readings : List Char)
    (hlen : readings.length = 33) (haio : ∀ k, k < 8 → aio k < 65536) :
    acquire_galileo aio readings
      = some (groups aio ++ [Char.ofNat 0]) := by
  unfold groups
  obtain ⟨c, tl, rfl⟩ : ∃ c tl, readings = c :: tl := by
    cases readings with
    | nil => simp at hlen
    | cons c tl => exact ⟨c, tl, rfl⟩
  have htl : tl.length = 32 := by simpa using hlen
  unfold acquire_galileo
  have s0 := sprintf_04x_step [] tl c 0 (aio 0) (haio 0 (by omega)) rfl (by omega)
  simp only [List.nil_append] at s0
  have s1 := sprintf_04x_step (hex4 (aio 0)) (tl.drop 4) (Char.ofNat 0) 4 (aio 1)
    (haio 1 (by omega)) (by simp [hex4]) (by simp [htl])
  have s2 := sprintf_04x_step (hex4 (aio 0) ++ hex4 (aio 1)) ((tl.drop 4).drop 4) (Char.ofNat 0)
    8 (aio 2) (haio 2 (by omega)) (by simp [hex4]) (by simp [htl])
  have s3 := sprintf_04x_step (hex4 (aio 0) ++ hex4 (aio 1) ++ hex4 (aio 2))
    (((tl.drop 4).drop 4).drop 4) (Char.ofNat 0)
    12 (aio 3) (haio 3 (by omega)) (by simp [hex4])
    (by simp [htl])
  have s4 := sprintf_04x_step (hex4 (aio 0) ++ hex4 (aio 1) ++ hex4 (aio 2) ++ hex4 (aio 3))
    ((((tl.drop 4).drop 4).drop 4).drop 4) (Char.ofNat 0)
    16 (aio 4) (haio 4 (by omega)) (by simp [hex4])
    (by simp [htl])
  have s5 := sprintf_04x_step
    (hex4 (aio 0) ++ hex4 (aio 1) ++ hex4 (aio 2) ++ hex4 (aio 3) ++ hex4 (aio 4))
    (((((tl.drop 4).drop 4).drop 4).drop 4).drop 4) (Char.ofNat 0)
    20 (aio 5) (haio 5 (by omega)) (by simp [hex4])
    (by simp [htl])
  have s6 := sprintf_04x_step
    (hex4 (aio 0) ++ hex4 (aio 1) ++ hex4 (aio 2) ++ hex4 (aio 3) ++ hex4 (aio 4) ++
      hex4 (aio 5))
    ((((((tl.drop 4).drop 4).drop 4).drop 4).drop 4).drop 4) (Char.ofNat 0)
    24 (aio 6) (haio 6 (by omega)) (by simp [hex4])
    (by simp [htl])
  have s7 := sprintf_04x_step
    (hex4 (aio 0) ++ hex4 (aio 1) ++ hex4 (aio 2) ++ hex4 (aio 3) ++ hex4 (aio 4) ++
      hex4 (aio 5) ++ hex4 (aio 6))
    (((((((tl.drop 4).drop 4).drop 4).drop 4).drop 4).drop 4).drop 4) (Char.ofNat 0)
    28 (aio 7) (haio 7 (by omega)) (by simp [hex4])
    (by simp [htl])
  have hend : (((((((tl.drop 4).drop 4).drop 4).drop 4).drop 4).drop 4).drop 4).drop 4 = [] := by
    apply List.eq_nil_of_length_eq_zero
    simp [htl]
  rw [hend] at s7
  simp only [bind, Option.bind, s0, s1, s2, s3, s4, s5, s6, s7]

theorem fprintf_s_line (line : List Char) (hline : ∀ c ∈ line, c ≠ Char.ofNat 0) :
    fprintf_s (line ++ [Char.ofNat 0]) = some (line ++ ['\n']) := by
  unfold fprintf_s
  rw [if_pos (by simp)]
  have : List.takeWhile (fun c => c != Char.ofNat 0) (line ++ [Char.ofNat 0]) = line := by
    induction line with
    | nil => simp [List.takeWhile]
    | cons a l ih =>
      have ha : a ≠ Char.ofNat 0 := hline a (List.mem_cons_self _ _)
      simp only [List.cons_append]
      rw [List.takeWhile_cons_of_pos (by simpa using ha),
        ih (fun c hc => hline c (List.mem_cons_of_mem _ hc))]
  rw [this]

theorem hex4_no_nul (v : Nat) : ∀ c ∈ hex4 v, c ≠ Char.ofNat 0 := by
  intro c hc
  simp only [hex4, List.mem_cons, List.mem_singleton, List.not_mem_nil, or_false] at hc
  rcases hc with h | h | h | h <;> rw [h] <;> exact hexChar_ne_nul _

theorem main_galileo_iteration_eq (aio : Nat → Nat) (readings : List Char)
    (encBuff : List CChar) (hlen : readings.length = 33) (henc : encBuff.length = 32)
    (haio : ∀ k, k < 8 → aio k < 65536) :
    main_galileo_iteration aio readings encBuff
      = some (groups aio ++ [Char.ofNat 0], record aio encBuff) := by
  unfold main_galileo_iteration save_findings
  rw [acquire_galileo_eq aio readings hlen haio]
  have hno : ∀ c ∈ groups aio, c ≠ Char.ofNat 0 := by
    intro c hc
    simp only [groups, List.mem_append] at hc
    rcases hc with ((((((h | h) | h) | h) | h) | h) | h) | h <;> exact hex4_no_nul _ c h
  simp only [bind, Option.bind, fprintf_s_line _ hno, fprintf_encBuff_eq encBuff henc,
    Option.map, record, pure]

theorem record_length (v : Nat → Nat) (encBuff : List CChar) (henc : encBuff.length = 32) :
    (record v encBuff).length = 98 := by
  have h2 : ∀ l : List CChar, (l.flatMap hex2).length = 2 * l.length := by
    intro l
    induction l with
    | nil => rfl
    | cons a l ih => simp [List.flatMap_cons, hex2] at ih ⊢; omega
  simp [record, groups, hex4, h2, henc]

/-- In the second line of a record, characters `2j` and `2j + 1` are the two
hexadecimal digits of the unsigned value of result byte `j`. -/
theorem flatMap_hex2_index (encBuff : List CChar) (j : Nat) (hj : j < encBuff.length) :
    (encBuff.flatMap hex2)[2 * j]? = some (hexChar ((encBuff[j] % 256).toNat / 16)) ∧
    (encBuff.flatMap hex2)[2 * j + 1]? = some (hexChar ((encBuff[j] % 256).toNat % 16)) := by
  induction encBuff generalizing j with
  | nil => simp at hj
  | cons a l ih =>
    cases j with
    | zero => simp [List.flatMap_cons, hex2]
    | succ k =>
      have hk : k < l.length := by simpa using hj
      have h2 : 2 * (k + 1) = 2 * k + 1 + 1 := by omega
      obtain ⟨ih1, ih2⟩ := ih k hk
      simp only [List.flatMap_cons, hex2, List.cons_append, List.nil_append, h2,
        List.getElem?_cons_succ, List.getElem_cons_succ]
      exact ⟨ih1, ih2⟩

theorem main_pi_iteration_eq (rand : Nat → Nat) (readings : List Char)
    (encBuff : List CChar) (hlen : readings.length = 33) (henc : encBuff.length = 32) :
    main_pi_iteration rand readings encBuff
      = some (groups (fun k => rand k &&& 0xffff) ++ [Char.ofNat 0],
        record (fun k => rand k &&& 0xffff) encBuff) :=
  main_galileo_iteration_eq (fun k => rand k &&& 0xffff) readings encBuff hlen henc
    (fun k _ => Nat.and_lt_two_pow (rand k) (by norm_num : 0xffff < 2 ^ 16))

/-- C9, as stated, fails in the Galileo harness, which passes the reading to
`%04x` unmasked: a reading of `0x10000` in the last position makes `sprintf`
write past the end of the 33-byte payload buffer, and in the first position it
leaves `1000` as the first group. -/
theorem main_galileo_iteration_wide_reading :
    main_galileo_iteration (fun k => if k = 7 then 0x10000 else 0) (List.replicate 33 'z')
      (List.replicate 32 0) = none ∧
    (main_galileo_iteration (fun k => if k = 0 then 0x10000 else 0) (List.replicate 33 'z')
      (List.replicate 32 0)).map (fun p => p.2.take 8)
      = some ['1', '0', '0', '0', '0', '0', '0', '0'] := by
  decide

/-- C9, amended: in the Pi harness for all values of `rand()` (each is masked
with `0xffff`), and in the Galileo harness for readings in `0 .. 65535`, with a
33-byte payload buffer and a 32-byte result buffer of arbitrary contents (bytes
of either signedness), one iteration writes no byte outside the payload buffer
and appends to the file exactly the record: 8 groups of 4 zero-padded
lower-case hexadecimal digits, group `k` rendering value `k`, a newline, the 64
lower-case hexadecimal digits of the unsigned values of the 32 result bytes,
two per byte, and a newline (98 characters). -/
theorem harness_record (rand aio : Nat → Nat) (readings : List Char) (encBuff : List CChar)
    (hlen : readings.length = 33) (henc : encBuff.length = 32)
    (haio : ∀ k, k < 8 → aio k < 65536) :
    main_pi_iteration rand readings encBuff
      = some (groups (fun k => rand k &&& 0xffff) ++ [Char.ofNat 0],
        record (fun k => rand k &&& 0xffff) encBuff) ∧
    main_galileo_iteration aio readings encBuff
      = some (groups aio ++ [Char.ofNat 0], record aio encBuff) ∧
    (groups (fun k => rand k &&& 0xffff) ++ [Char.ofNat 0]).length = 33 ∧
    (groups aio ++ [Char.ofNat 0]).length = 33 ∧
    (record (fun k => rand k &&& 0xffff) encBuff).length = 98 ∧
    (record aio encBuff).length = 98 :=
  ⟨main_pi_iteration_eq rand readings encBuff hlen henc,
    main_galileo_iteration_eq aio readings encBuff hlen henc haio,
    by simp [groups, hex4], by simp [groups, hex4],
    record_length _ encBuff henc, record_length _ encBuff henc⟩

/-- Witness for C9 (amended): wide `rand()` values, 10-bit readings and a
result buffer of bytes `-1`. -/
theorem harness_record_witness :
    main_pi_iteration (fun k => 0x12345 + k) (List.replicate 33 (Char.ofNat 0))
        (List.replicate 32 (-1))
      = some (groups (fun k => (0x12345 + k) &&& 0xffff) ++ [Char.ofNat 0],
        record (fun k => (0x12345 + k) &&& 0xffff) (List.replicate 32 (-1))) ∧
    main_galileo_iteration (fun k => 1023 - k) (List.replicate 33 (Char.ofNat 0))
        (List.replicate 32 (-1))
      = some (groups (fun k => 1023 - k) ++ [Char.ofNat 0],
        record (fun k => 1023 - k) (List.replicate 32 (-1))) ∧
    (groups (fun k => (0x12345 + k) &&& 0xffff) ++ [Char.ofNat 0]).length = 33 ∧
    (groups (fun k => 1023 - k) ++ [Char.ofNat 0]).length = 33 ∧
    (record (fun k => (0x12345 + k) &&& 0xffff) (List.replicate 32 (-1))).length = 98 ∧
    (record (fun k => 1023 - k) (List.replicate 32 (-1))).length = 98 :=
  harness_record (fun k => 0x12345 + k) (fun k => 1023 - k) (List.replicate 33 (Char.ofNat 0))
    (List.replicate 32 (-1)) (by decide) (by decide) (by intro k _; simp; omega)

/-! ## The elapsed time -/

theorem foldl_total (ts : List (timeval × timeval)) (acc : Int) :
    ts.foldl (fun total p => total + (p.2.tv_usec - p.1.tv_usec)) acc
      = acc + (ts.map (fun p => p.2.tv_usec - p.1.tv_usec)).sum := by
  induction ts generalizing acc with
  | nil => simp
  | cons p ts ih => simp [List.foldl_cons, ih, add_assoc]

/-- What the accumulation does compute: it agrees with the elapsed time when
no iteration crosses a second boundary. -/
theorem main_total_same_second (ts : List (timeval × timeval))
    (hsec : ∀ p ∈ ts, p.1.tv_sec = p.2.tv_sec) : main_total ts = total_elapsed ts := by
  unfold main_total total_elapsed
  rw [foldl_total, zero_add]
  congr 1
  apply List.map_congr_left
  intro p hp
  simp [elapsed_us, hsec p hp]

/-- C10 fails on the code: the accumulation ignores `tv_sec`. With 128 ordered
pairs of well-formed timestamps, the first from `0 s 999999 us` to `1 s 0 us`
(one microsecond elapsed) and the others of zero duration, the elapsed time is
1 us, while the harness accumulates `-999999` and prints `-7812` per
iteration. -/
theorem main_total_ignores_seconds :
    ((⟨0, 999999⟩, ⟨1, 0⟩) :: List.replicate 127 ((⟨1, 0⟩, ⟨1, 0⟩) : timeval × timeval)).length
      = 128 ∧
    ((⟨0, 999999⟩, ⟨1, 0⟩) :: List.replicate 127 ((⟨1, 0⟩, ⟨1, 0⟩) : timeval × timeval)).all
      (fun p => p.1.wf && p.2.wf && p.1.le p.2) = true ∧
    total_elapsed
      ((⟨0, 999999⟩, ⟨1, 0⟩) :: List.replicate 127 ((⟨1, 0⟩, ⟨1, 0⟩) : timeval × timeval)) = 1 ∧
    main_total
      ((⟨0, 999999⟩, ⟨1, 0⟩) :: List.replicate 127 ((⟨1, 0⟩, ⟨1, 0⟩) : timeval × timeval))
      = -999999 ∧
    main_per_iter (main_total
      ((⟨0, 999999⟩, ⟨1, 0⟩) :: List.replicate 127 ((⟨1, 0⟩, ⟨1, 0⟩) : timeval × timeval)))
      = -7812 := by
  decide

end SHA256AES128
